import Mathlib

/-!
Verification development for the tote-label generator (src/tote.py).

The script is a single-file Python program.  We give a shallow embedding of
its core logic:

  * `parse_location_string` — the location parser (tote.py lines 88-107);
  * the column resolver inside `generate_sticker_labels` (lines 127-153);
  * per-row label composition (lines 186-361), modelled as `make_label`;
  * document assembly with page breaks (lines 176-379), modelled as
    `generate_sticker_labels` returning the mutated table state together
    with the list of emitted flowable elements.

External libraries (pandas, reportlab, qrcode, streamlit) are modelled at
the boundary: a data frame is a list of column names plus rows of cells, a
QR image is identified by the data string it encodes, and the success of the
external QR encoder is an oracle parameter `qrOk`.  Character classes follow
the ASCII behaviour of the Python string operations involved.
-/

/-- ASCII model of the Python regex class backslash-s (whitespace), which is
also what str.strip removes. -/
def isPySpace (c : Char) : Bool :=
  c = ' ' || c = '\t' || c = '\n' || c = '\r' || c = '\x0b' || c = '\x0c'

/-- A separator for the location tokenizer: the regex in tote.py line 100 is
r'([^_\x5cs]+)', i.e. tokens are maximal runs of characters that are neither
whitespace nor underscore. -/
def isSep (c : Char) : Bool :=
  isPySpace c || c = '_'

/-- Python str.strip(): drop leading and trailing whitespace characters
(tote.py line 97). -/
def pyStrip (s : String) : String :=
  String.mk (((s.data.dropWhile isPySpace).reverse.dropWhile isPySpace).reverse)

/-- Split a character list at every separator character; pieces between
separators may be empty.  `re.findall` of r'([^_\x5cs]+)' returns exactly the
nonempty pieces, in order. -/
def splitSep : List Char → List (List Char)
  | [] => [[]]
  | c :: cs =>
    if isSep c then [] :: splitSep cs
    else
      match splitSep cs with
      | [] => [[c]]
      | g :: gs => (c :: g) :: gs

/-- The token list produced by re.findall(r'([^_\x5cs]+)', s)
(tote.py lines 100-101): all maximal nonempty runs of non-separator
characters, in order. -/
def tokenize (s : String) : List String :=
  ((splitSep s.data).filter (fun g => g ≠ [])).map String.mk

/-- parse_location_string (tote.py lines 88-107).  The input is an optional
string: `none` models Python None or any non-string value, both rejected by
the guard on line 93 (`not location_str or not isinstance(location_str, str)`);
`some ""` is also rejected by that guard since the empty string is falsy.
Otherwise the string is stripped, tokenized, and the first 7 tokens are
written into a list of 7 slots initialised to empty strings (the loop on
lines 104-105 over matches[:7]), which equals the first 7 tokens padded on
the right with empty strings up to length 7. -/
def parse_location_string (location_str : Option String) : List String :=
  match location_str with
  | none => ["", "", "", "", "", "", ""]
  | some s =>
    if s = "" then ["", "", "", "", "", "", ""]
    else
      let found := tokenize (pyStrip s)
      let first7 := found.take 7
      first7 ++ List.replicate (7 - first7.length) ""

/-- Python str.upper for the ASCII column names the claims involve: upper-case
every character (tote.py line 129). -/
def pyUpper (s : String) : String :=
  String.mk (s.data.map Char.toUpper)

/-- Subsidiary to `strContains`: list-level prefix test. -/
def isPrefixL : List Char → List Char → Bool
  | [], _ => true
  | _ :: _, [] => false
  | a :: as, b :: bs => a = b && isPrefixL as bs

/-- Subsidiary to `strContains`: does any suffix of the second list start
with the pattern. -/
def containsAux (pat : List Char) : List Char → Bool
  | [] => isPrefixL pat []
  | c :: cs => isPrefixL pat (c :: cs) || containsAux pat cs

/-- Python substring membership `pat in s` on strings. -/
def strContains (s pat : String) : Bool :=
  containsAux pat.data s.data

/-- Column resolution for the part-number role (tote.py lines 133-134):
first column containing "PART" and one of "NO", "NUM", "#"; else first
column literally named "PARTNO" or "PART"; else column 0.  The argument is
the already upper-cased column list; the result is `none` exactly when the
list is empty (in Python, cols[0] raises IndexError there). -/
def part_no_col (cols : List String) : Option String :=
  match cols.find? (fun col => strContains col "PART" &&
      (strContains col "NO" || strContains col "NUM" || strContains col "#")) with
  | some c => some c
  | none =>
    match cols.find? (fun col => col = "PARTNO" || col = "PART") with
    | some c => some c
    | none => cols.head?

/-- Column resolution for the description role (tote.py lines 136-137):
first column containing "DESC"; else first containing "NAME"; else column 1
if it exists, else the part-number column. -/
def desc_col (cols : List String) : Option String :=
  match cols.find? (fun col => strContains col "DESC") with
  | some c => some c
  | none =>
    match cols.find? (fun col => strContains col "NAME") with
    | some c => some c
    | none => if cols.length > 1 then cols[1]? else part_no_col cols

/-- Column resolution for the quantity-per-bin role (tote.py lines 140-146):
first column containing "QTY/BIN", "QTY_BIN" or "QTYBIN"; else first
containing both "QTY" and "BIN"; if still none (the `if not qty_bin_col`
fallback), first containing "QTY"; else first containing "QUANTITY"; else
unmapped. -/
def qty_bin_col (cols : List String) : Option String :=
  let primary :=
    match cols.find? (fun col => strContains col "QTY/BIN" ||
        strContains col "QTY_BIN" || strContains col "QTYBIN") with
    | some c => some c
    | none => cols.find? (fun col => strContains col "QTY" && strContains col "BIN")
  match primary with
  | some c => some c
  | none =>
    match cols.find? (fun col => strContains col "QTY") with
    | some c => some c
    | none => cols.find? (fun col => strContains col "QUANTITY")

/-- Column resolution for the line-location role (tote.py lines 148-149):
first column containing "LOC", "POS" or "LOCATION"; else column 2 if it
exists, else the description column. -/
def loc_col (cols : List String) : Option String :=
  match cols.find? (fun col => strContains col "LOC" || strContains col "POS" ||
      strContains col "LOCATION") with
  | some c => some c
  | none => if cols.length > 2 then cols[2]? else desc_col cols

/-- Column resolution for the store-location role (tote.py lines 152-153):
first column containing both "STORE" and "LOC"; else first containing
"STORELOCATION"; else unmapped. -/
def store_loc_col (cols : List String) : Option String :=
  match cols.find? (fun col => strContains col "STORE" && strContains col "LOC") with
  | some c => some c
  | none => cols.find? (fun col => strContains col "STORELOCATION")

/-- The five resolved roles of a table. -/
structure Resolved where
  pcol : String
  dcol : String
  lcol : String
  qcol : Option String
  scol : Option String
deriving Repr, DecidableEq

/-- Run the whole column resolver on the upper-cased column list.  `none`
models the IndexError raised by cols[0] on a zero-column table. -/
def resolve (cols : List String) : Option Resolved :=
  match part_no_col cols, desc_col cols, loc_col cols with
  | some p, some d, some l => some ⟨p, d, l, qty_bin_col cols, store_loc_col cols⟩
  | _, _, _ => none

/-- The resolver result with a dummy default, for stating theorems without
an existential; on any nonempty column list `resolve` succeeds and this is
its value. -/
def the_resolved (cols : List String) : Resolved :=
  (resolve cols).getD ⟨"", "", "", none, none⟩

/-- A pandas cell as the generator observes it: either a scalar whose string
form is `v`, or a missing value (NaN). -/
inductive Cell where
  | s (v : String)
  | na
deriving Repr, DecidableEq

/-- Python str() of a cell value; str of a pandas NaN float is "nan". -/
def str_cell : Cell → String
  | .s v => v
  | .na => "nan"

/-- pd.notna on a cell. -/
def notna : Cell → Bool
  | .s _ => true
  | .na => false

/-- The tabular input of generate_sticker_labels: ordered column names and
rows of cells aligned with the columns by position. -/
structure DataFrame where
  columns : List String
  rows : List (List Cell)
deriving Repr, DecidableEq

/-- row[col] for a pandas row Series: look the column name up in the column
list and read the cell at that position.  All resolved column names are
members of the column list, so the `Cell.na` defaults are never reached in
the generator. -/
def getCell (cols : List String) (row : List Cell) (c : String) : Cell :=
  match cols.findIdx? (fun x => x = c) with
  | some i => row.getD i Cell.na
  | none => Cell.na

/-- The description text placed in the label (tote.py line 223):
desc[:30] + "..." if len(desc) > 30 else desc. -/
def truncated_desc (desc : String) : String :=
  if desc.length > 30 then desc.take 30 ++ "..." else desc

/-- generate_qr_code (tote.py lines 59-86).  The qrcode/PIL work is
external; the oracle `qrOk` tells whether encoding the given data string
succeeds.  On success the resulting image is identified by the data string
it encodes; on failure the except branch returns None. -/
def generate_qr_code (qrOk : String → Bool) (data_string : String) : Option String :=
  if qrOk data_string then some data_string else none

/-- The content of the code region of one label: either the QR image (named
by its encoded data) or the literal placeholder paragraph text used when
qr_image is None (tote.py lines 334-341). -/
inductive QRCell where
  | image (data : String)
  | placeholder (text : String)
deriving Repr, DecidableEq

/-- One composed label: the texts and slot lists that the fixed-geometry
tables of tote.py lines 221-361 display for one row. -/
structure Label where
  part_no : String
  desc_shown : String
  qty_bin : String
  store_slots : List String
  line_slots : List String
  qr : QRCell
deriving Repr, DecidableEq

/-- The non-code content of a label: every displayed field except the code
region. -/
structure LabelContent where
  part_no : String
  desc_shown : String
  qty_bin : String
  store_slots : List String
  line_slots : List String
deriving Repr, DecidableEq

/-- Forget the code region of a label. -/
def dropQR (l : Label) : LabelContent :=
  ⟨l.part_no, l.desc_shown, l.qty_bin, l.store_slots, l.line_slots⟩

/-- The part-number text of a row (tote.py line 189). -/
def row_part_no (cols : List String) (res : Resolved) (row : List Cell) : String :=
  str_cell (getCell cols row res.pcol)

/-- The description text of a row (tote.py line 190). -/
def row_desc (cols : List String) (res : Resolved) (row : List Cell) : String :=
  str_cell (getCell cols row res.dcol)

/-- The quantity-per-bin text of a row (tote.py lines 193-195): empty unless
the column is mapped, truthy, present in the row and the cell is not NaN. -/
def row_qty_bin (cols : List String) (res : Resolved) (row : List Cell) : String :=
  match res.qcol with
  | some qc =>
    if qc ≠ "" && cols.contains qc && notna (getCell cols row qc) then
      str_cell (getCell cols row qc)
    else ""
  | none => ""

/-- The raw location string of a row (tote.py line 197). -/
def row_location_str (cols : List String) (res : Resolved) (row : List Cell) : String :=
  if res.lcol ≠ "" && cols.contains res.lcol then
    str_cell (getCell cols row res.lcol)
  else ""

/-- The raw store-location string of a row (tote.py line 198). -/
def row_store_location (cols : List String) (res : Resolved) (row : List Cell) : String :=
  match res.scol with
  | some sc =>
    if sc ≠ "" && cols.contains sc then str_cell (getCell cols row sc) else ""
  | none => ""

/-- The QR data string of a row (tote.py lines 202-203). -/
def row_qr_data (cols : List String) (res : Resolved) (row : List Cell) : String :=
  "Part No: " ++ row_part_no cols res row ++
  "\nDescription: " ++ row_desc cols res row ++
  "\nLocation: " ++ row_location_str cols res row ++
  "\nStore Location: " ++ row_store_location cols res row ++
  "\nQTY/BIN: " ++ row_qty_bin cols res row

/-- Compose the label of one row (tote.py lines 186-357): the main table
texts (part number bold, description truncated at 30 characters, quantity),
the S.LOC row from parse_location_string of the store location when that
string is truthy (line 253), the L.LOC row from parse_location_string of the
location string (line 199), and the code region: the QR image if
generate_qr_code succeeded, else the literal "QR" placeholder. -/
def make_label (qrOk : String → Bool) (cols : List String) (res : Resolved)
    (row : List Cell) : Label :=
  { part_no := row_part_no cols res row
    desc_shown := truncated_desc (row_desc cols res row)
    qty_bin := row_qty_bin cols res row
    store_slots :=
      if row_store_location cols res row ≠ "" then
        parse_location_string (some (row_store_location cols res row))
      else ["", "", "", "", "", "", ""]
    line_slots := parse_location_string (some (row_location_str cols res row))
    qr :=
      match generate_qr_code qrOk (row_qr_data cols res row) with
      | some img => QRCell.image img
      | none => QRCell.placeholder "QR" }

/-- One flowable element appended to the document story: the fixed spacer,
the final composed label table of one row, or a page break. -/
inductive Element where
  | spacer
  | labelTable (l : Label)
  | pageBreak
deriving Repr, DecidableEq

/-- The per-row loop of generate_sticker_labels (tote.py lines 178-368):
for each row append the spacer and the final label table, and append a page
break when index < total_rows - 1.  `index` is the positional row index, as
produced by iterrows on a default range index. -/
def sticker_loop (qrOk : String → Bool) (cols : List String) (res : Resolved)
    (total_rows : Nat) (index : Nat) : List (List Cell) → List Element
  | [] => []
  | row :: rest =>
    [Element.spacer, Element.labelTable (make_label qrOk cols res row)]
      ++ (if index < total_rows - 1 then [Element.pageBreak] else [])
      ++ sticker_loop qrOk cols res total_rows (index + 1) rest

/-- generate_sticker_labels (tote.py lines 109-379).  The first component is
the state of the caller's data frame after the call: line 129 reassigns
df.columns to the upper-cased names, and nothing else in the function writes
to df.  The second component is the emitted story: `some` of the element
list when resolution succeeds and the document builds (document building is
external and modelled as succeeding on every story), `none` when the table
has zero columns (cols[0] raises before any rendering). -/
def generate_sticker_labels (qrOk : String → Bool) (df : DataFrame) :
    DataFrame × Option (List Element) :=
  let cols := df.columns.map pyUpper
  let df2 : DataFrame := { columns := cols, rows := df.rows }
  match resolve cols with
  | some res =>
    (df2, some (sticker_loop qrOk cols res df2.rows.length 0 df2.rows))
  | none => (df2, none)

/-- The labels of a story, in order of appearance. -/
def getLabel : Element → Option Label
  | Element.labelTable l => some l
  | _ => none

/-- The labels of a story, in order of appearance. -/
def labelsOf (es : List Element) : List Label :=
  es.filterMap getLabel

/-- Is an element a page break. -/
def isBreak : Element → Bool
  | Element.pageBreak => true
  | _ => false

/-- Number of page breaks in a story. -/
def countBreaks (es : List Element) : Nat :=
  es.countP isBreak

/-- The labels composed for the rows of a data frame, in input order, under
the resolver output of its upper-cased columns. -/
def labelsRows (qrOk : String → Bool) (df : DataFrame) : List Label :=
  df.rows.map
    (make_label qrOk (df.columns.map pyUpper)
      (the_resolved (df.columns.map pyUpper)))

/-- The story shape the spec describes: each label on its own page, preceded
by the spacer, with a page break after every label except the last. -/
def pagesJoin : List Label → List Element
  | [] => []
  | [l] => [Element.spacer, Element.labelTable l]
  | l :: rest => Element.spacer :: Element.labelTable l :: Element.pageBreak :: pagesJoin rest

/-- Join strings with single underscores, the re-serialisation used to state
idempotence of the location parser. -/
def joinUnderscore : List String → String
  | [] => ""
  | [t] => t
  | t :: rest => t ++ "_" ++ joinUnderscore rest

/-- Character-list level of `joinUnderscore`: join character lists with a
single underscore between consecutive pieces. -/
def joinT : List (List Char) → List Char
  | [] => []
  | [t] => t
  | t :: rest => t ++ '_' :: joinT rest

/-! ## Helper lemmas -/

theorem parse_location_string_length (x : Option String) :
    (parse_location_string x).length = 7 := by
  match x with
  | none => rfl
  | some s =>
    unfold parse_location_string
    by_cases h : s = ""
    · simp [h]
    · simp only [h, if_false]
      simp [List.length_append, List.length_replicate, List.length_take]

theorem part_no_col_isSome (cols : List String) (h : cols ≠ []) :
    (part_no_col cols).isSome = true := by
  unfold part_no_col
  split
  · rfl
  · split
    · rfl
    · cases cols with
      | nil => exact absurd rfl h
      | cons a l => rfl

theorem desc_col_isSome (cols : List String) (h : cols ≠ []) :
    (desc_col cols).isSome = true := by
  unfold desc_col
  split
  · rfl
  · split
    · rfl
    · by_cases h2 : cols.length > 1
      · simp only [h2, if_true]
        have : 1 < cols.length := h2
        simp [List.getElem?_eq_getElem this]
      · simp only [h2, if_false]
        exact part_no_col_isSome cols h

theorem loc_col_isSome (cols : List String) (h : cols ≠ []) :
    (loc_col cols).isSome = true := by
  unfold loc_col
  split
  · rfl
  · by_cases h2 : cols.length > 2
    · simp only [h2, if_true]
      have : 2 < cols.length := h2
      simp [List.getElem?_eq_getElem this]
    · simp only [h2, if_false]
      exact desc_col_isSome cols h

theorem resolve_eq (cols : List String) (h : cols ≠ []) :
    resolve cols = some (the_resolved cols) := by
  obtain ⟨p, hp⟩ := Option.isSome_iff_exists.mp (part_no_col_isSome cols h)
  obtain ⟨d, hd⟩ := Option.isSome_iff_exists.mp (desc_col_isSome cols h)
  obtain ⟨l, hl⟩ := Option.isSome_iff_exists.mp (loc_col_isSome cols h)
  have hres : resolve cols = some ⟨p, d, l, qty_bin_col cols, store_loc_col cols⟩ := by
    unfold resolve
    rw [hp, hd, hl]
  rw [hres, the_resolved, hres]
  rfl

theorem sticker_loop_eq_pagesJoin (qrOk : String → Bool) (cols : List String)
    (res : Resolved) :
    ∀ (rows : List (List Cell)) (n idx : Nat), idx + rows.length = n →
      sticker_loop qrOk cols res n idx rows =
        pagesJoin (rows.map (make_label qrOk cols res)) := by
  intro rows
  induction rows with
  | nil => intro n idx _; rfl
  | cons row rest ih =>
    intro n idx h
    cases rest with
    | nil =>
      have hn : ¬ (idx < n - 1) := by
        simp only [List.length_cons, List.length_nil] at h
        omega
      simp [sticker_loop, pagesJoin, hn]
    | cons r2 rest2 =>
      have hlt : idx < n - 1 := by
        simp only [List.length_cons] at h
        omega
      have hrec := ih n (idx + 1) (by simp only [List.length_cons] at h ⊢; omega)
      conv_lhs => rw [sticker_loop]
      rw [if_pos hlt, hrec]
      simp [pagesJoin]

theorem labelsOf_pagesJoin (ls : List Label) : labelsOf (pagesJoin ls) = ls := by
  induction ls with
  | nil => rfl
  | cons l rest ih =>
    cases rest with
    | nil => rfl
    | cons l2 rest2 =>
      simp only [pagesJoin, labelsOf, List.filterMap_cons, getLabel] at ih ⊢
      rw [ih]

theorem countBreaks_pagesJoin (ls : List Label) :
    countBreaks (pagesJoin ls) = ls.length - 1 := by
  induction ls with
  | nil => rfl
  | cons l rest ih =>
    cases rest with
    | nil => rfl
    | cons l2 rest2 =>
      simp [pagesJoin, countBreaks, List.countP_cons, isBreak, List.length_cons] at ih ⊢
      omega

theorem generate_eq (qrOk : String → Bool) (df : DataFrame) (h : df.columns ≠ []) :
    generate_sticker_labels qrOk df =
      ({ columns := df.columns.map pyUpper, rows := df.rows },
        some (pagesJoin (labelsRows qrOk df))) := by
  have hc : df.columns.map pyUpper ≠ [] := by
    cases hcols : df.columns with
    | nil => exact absurd hcols h
    | cons a l => simp
  have hres := resolve_eq _ hc
  have hloop := sticker_loop_eq_pagesJoin qrOk (df.columns.map pyUpper)
    (the_resolved (df.columns.map pyUpper)) df.rows df.rows.length 0 (by omega)
  unfold generate_sticker_labels
  simp only [hres, hloop]
  rfl

/-! ## Claim theorems -/

/-- C1: for every input (a string, the empty string, or None or a non-string
value, both modelled by `none`), the location parser returns exactly 7
slots; tokens are assigned to slots in order with trailing slots empty; in
particular parsing "A_B C" gives ["A","B","C","","","",""] and parsing ""
or a non-string gives seven empty strings. -/
theorem C1_parse_seven_slots (input : Option String) :
    (parse_location_string input).length = 7 ∧
    parse_location_string (some "A_B C") = ["A", "B", "C", "", "", "", ""] ∧
    parse_location_string (some "") = ["", "", "", "", "", "", ""] ∧
    parse_location_string none = ["", "", "", "", "", "", ""] :=
  ⟨parse_location_string_length input, by decide, by decide, rfl⟩

/-- C2: for every table with at least one column, document assembly emits
one label per row in input order, each on its own page, with a page break
after every label except the last: the story equals `pagesJoin` of the
per-row labels, whose label sequence is exactly the row-wise labels and
whose page-break count is the row count minus one. -/
theorem C2_one_page_per_row (qrOk : String → Bool) (df : DataFrame)
    (h : df.columns ≠ []) :
    (generate_sticker_labels qrOk df).2 = some (pagesJoin (labelsRows qrOk df)) ∧
    labelsOf (pagesJoin (labelsRows qrOk df)) = labelsRows qrOk df ∧
    countBreaks (pagesJoin (labelsRows qrOk df)) = df.rows.length - 1 ∧
    (labelsRows qrOk df).length = df.rows.length := by
  have hg := generate_eq qrOk df h
  refine ⟨by rw [hg], labelsOf_pagesJoin _, ?_, by simp [labelsRows]⟩
  rw [countBreaks_pagesJoin]
  simp [labelsRows]

/-- Witness for C2 at a concrete two-row table with one column. -/
theorem C2_one_page_per_row_witness :
    (generate_sticker_labels (fun _ => true) ⟨["A"], [[Cell.s "x"], [Cell.s "y"]]⟩).2
        = some (pagesJoin (labelsRows (fun _ => true) ⟨["A"], [[Cell.s "x"], [Cell.s "y"]]⟩)) ∧
    labelsOf (pagesJoin (labelsRows (fun _ => true) ⟨["A"], [[Cell.s "x"], [Cell.s "y"]]⟩))
        = labelsRows (fun _ => true) ⟨["A"], [[Cell.s "x"], [Cell.s "y"]]⟩ ∧
    countBreaks (pagesJoin (labelsRows (fun _ => true) ⟨["A"], [[Cell.s "x"], [Cell.s "y"]]⟩))
        = (⟨["A"], [[Cell.s "x"], [Cell.s "y"]]⟩ : DataFrame).rows.length - 1 ∧
    (labelsRows (fun _ => true) ⟨["A"], [[Cell.s "x"], [Cell.s "y"]]⟩).length
        = (⟨["A"], [[Cell.s "x"], [Cell.s "y"]]⟩ : DataFrame).rows.length :=
  C2_one_page_per_row (fun _ => true) ⟨["A"], [[Cell.s "x"], [Cell.s "y"]]⟩ (by decide)

/-- C3: on the column names ["Part Number","Description","Location",
"Qty/Bin","Store Location"], upper-cased as the generator does on line 129,
the resolver maps part_no, description, line_location, quantity_per_bin and
store_location to those five columns respectively. -/
theorem C3_standard_columns :
    part_no_col (["Part Number", "Description", "Location", "Qty/Bin", "Store Location"].map pyUpper)
        = some "PART NUMBER" ∧
    desc_col (["Part Number", "Description", "Location", "Qty/Bin", "Store Location"].map pyUpper)
        = some "DESCRIPTION" ∧
    loc_col (["Part Number", "Description", "Location", "Qty/Bin", "Store Location"].map pyUpper)
        = some "LOCATION" ∧
    qty_bin_col (["Part Number", "Description", "Location", "Qty/Bin", "Store Location"].map pyUpper)
        = some "QTY/BIN" ∧
    store_loc_col (["Part Number", "Description", "Location", "Qty/Bin", "Store Location"].map pyUpper)
        = some "STORE LOCATION" := by
  decide

/-- C4: for every column list with at least one column, the part-number,
description and location roles always resolve to some column; the
quantity and store-location roles may be unmapped; in particular on
["A","B","C"] the positional fallbacks give part_no to "A", description to
"B", line_location to "C", and the two optional roles are unmapped. -/
theorem C4_resolution_always_succeeds (cols : List String) (h : cols ≠ []) :
    (part_no_col cols).isSome = true ∧
    (desc_col cols).isSome = true ∧
    (loc_col cols).isSome = true ∧
    part_no_col ["A", "B", "C"] = some "A" ∧
    desc_col ["A", "B", "C"] = some "B" ∧
    loc_col ["A", "B", "C"] = some "C" ∧
    qty_bin_col ["A", "B", "C"] = none ∧
    store_loc_col ["A", "B", "C"] = none :=
  ⟨part_no_col_isSome cols h, desc_col_isSome cols h, loc_col_isSome cols h,
   by decide, by decide, by decide, by decide, by decide⟩

/-- Witness for C4 at the single unrecognizable column "X". -/
theorem C4_resolution_always_succeeds_witness :
    (part_no_col ["X"]).isSome = true ∧
    (desc_col ["X"]).isSome = true ∧
    (loc_col ["X"]).isSome = true ∧
    part_no_col ["A", "B", "C"] = some "A" ∧
    desc_col ["A", "B", "C"] = some "B" ∧
    loc_col ["A", "B", "C"] = some "C" ∧
    qty_bin_col ["A", "B", "C"] = none ∧
    store_loc_col ["A", "B", "C"] = none :=
  C4_resolution_always_succeeds ["X"] (by decide)

/-- C5: the description text rendered in every label is the truncation
applied by tote.py line 223: a description longer than 30 characters is cut
to its first 30 characters with an ellipsis appended; a description of 30
or fewer characters is rendered unchanged. -/
theorem C5_description_truncation (desc : String) (qrOk : String → Bool)
    (cols : List String) (res : Resolved) (row : List Cell) :
    (make_label qrOk cols res row).desc_shown = truncated_desc (row_desc cols res row) ∧
    (30 < desc.length → truncated_desc desc = desc.take 30 ++ "...") ∧
    (desc.length ≤ 30 → truncated_desc desc = desc) := by
  refine ⟨rfl, fun h => ?_, fun h => ?_⟩
  · simp [truncated_desc, h]
  · have h2 : ¬ desc.length > 30 := by omega
    simp [truncated_desc, h2]

/-- Witness for C5 at a 31-character and a 30-character description. -/
theorem C5_description_truncation_witness :
    ((make_label (fun _ => true) ["A"] ⟨"A", "A", "A", none, none⟩ [Cell.s "x"]).desc_shown
        = truncated_desc (row_desc ["A"] ⟨"A", "A", "A", none, none⟩ [Cell.s "x"])) ∧
    truncated_desc "0123456789012345678901234567890"
        = "0123456789012345678901234567890".take 30 ++ "..." ∧
    truncated_desc "012345678901234567890123456789"
        = "012345678901234567890123456789" :=
  ⟨(C5_description_truncation "" (fun _ => true) ["A"] ⟨"A", "A", "A", none, none⟩ [Cell.s "x"]).1,
   (C5_description_truncation "0123456789012345678901234567890" (fun _ => true) ["A"]
      ⟨"A", "A", "A", none, none⟩ [Cell.s "x"]).2.1 (by decide),
   (C5_description_truncation "012345678901234567890123456789" (fun _ => true) ["A"]
      ⟨"A", "A", "A", none, none⟩ [Cell.s "x"]).2.2 (by decide)⟩

/-- C6: a QR encoding failure on one row is absorbed: the whole run still
returns a document, the failing row is composed with the literal "QR"
placeholder in its code region, its other displayed fields are the same as
under any other QR oracle, and any row whose QR outcome is unchanged gets
an identical label. -/
theorem C6_qr_failure_absorbed (qrOk qrOk2 : String → Bool) (df : DataFrame)
    (row row2 : List Cell) (h : df.columns ≠ [])
    (hfail : qrOk (row_qr_data (df.columns.map pyUpper)
        (the_resolved (df.columns.map pyUpper)) row) = false)
    (hsame : qrOk (row_qr_data (df.columns.map pyUpper)
          (the_resolved (df.columns.map pyUpper)) row2)
        = qrOk2 (row_qr_data (df.columns.map pyUpper)
          (the_resolved (df.columns.map pyUpper)) row2)) :
    ((generate_sticker_labels qrOk df).2).isSome = true ∧
    (make_label qrOk (df.columns.map pyUpper)
        (the_resolved (df.columns.map pyUpper)) row).qr = QRCell.placeholder "QR" ∧
    dropQR (make_label qrOk (df.columns.map pyUpper)
        (the_resolved (df.columns.map pyUpper)) row)
      = dropQR (make_label qrOk2 (df.columns.map pyUpper)
        (the_resolved (df.columns.map pyUpper)) row) ∧
    make_label qrOk (df.columns.map pyUpper)
        (the_resolved (df.columns.map pyUpper)) row2
      = make_label qrOk2 (df.columns.map pyUpper)
        (the_resolved (df.columns.map pyUpper)) row2 := by
  refine ⟨?_, ?_, rfl, ?_⟩
  · rw [generate_eq qrOk df h]
    rfl
  · simp [make_label, generate_qr_code, hfail]
  · unfold make_label generate_qr_code
    rw [hsame]

/-- Witness for C6: a one-column two-row table whose QR oracle fails
exactly on the first row. -/
theorem C6_qr_failure_absorbed_witness :
    ((generate_sticker_labels
        (fun s => s != row_qr_data (["A"].map pyUpper) (the_resolved (["A"].map pyUpper)) [Cell.s "x"])
        ⟨["A"], [[Cell.s "x"], [Cell.s "y"]]⟩).2).isSome = true ∧
    (make_label
        (fun s => s != row_qr_data (["A"].map pyUpper) (the_resolved (["A"].map pyUpper)) [Cell.s "x"])
        (["A"].map pyUpper) (the_resolved (["A"].map pyUpper)) [Cell.s "x"]).qr
      = QRCell.placeholder "QR" ∧
    dropQR (make_label
        (fun s => s != row_qr_data (["A"].map pyUpper) (the_resolved (["A"].map pyUpper)) [Cell.s "x"])
        (["A"].map pyUpper) (the_resolved (["A"].map pyUpper)) [Cell.s "x"])
      = dropQR (make_label (fun _ => true)
        (["A"].map pyUpper) (the_resolved (["A"].map pyUpper)) [Cell.s "x"]) ∧
    make_label
        (fun s => s != row_qr_data (["A"].map pyUpper) (the_resolved (["A"].map pyUpper)) [Cell.s "x"])
        (["A"].map pyUpper) (the_resolved (["A"].map pyUpper)) [Cell.s "y"]
      = make_label (fun _ => true)
        (["A"].map pyUpper) (the_resolved (["A"].map pyUpper)) [Cell.s "y"] :=
  C6_qr_failure_absorbed
    (fun s => s != row_qr_data (["A"].map pyUpper) (the_resolved (["A"].map pyUpper)) [Cell.s "x"])
    (fun _ => true)
    ⟨["A"], [[Cell.s "x"], [Cell.s "y"]]⟩
    [Cell.s "x"] [Cell.s "y"]
    (by decide) (by decide) (by decide)

/-- C8: an empty dataset (0 rows, at least one column) produces a document,
not a failure, and its story contains no label pages and no page breaks. -/
theorem C8_empty_dataset (qrOk : String → Bool) (cols : List String)
    (h : cols ≠ []) :
    (generate_sticker_labels qrOk ⟨cols, []⟩).2 = some [] ∧
    labelsOf [] = [] ∧
    countBreaks [] = 0 := by
  have hg := generate_eq qrOk ⟨cols, []⟩ h
  refine ⟨?_, rfl, rfl⟩
  rw [hg]
  rfl

/-- Witness for C8 at the single column "A". -/
theorem C8_empty_dataset_witness :
    (generate_sticker_labels (fun _ => true) ⟨["A"], []⟩).2 = some [] ∧
    labelsOf [] = [] ∧
    countBreaks [] = 0 :=
  C8_empty_dataset (fun _ => true) ["A"] (by decide)

/-- C9: generation never mutates the caller-supplied table except for the
column-name case-normalization of tote.py line 129: the table state after
the call has the same rows (all cell values, order and count) and its
column names are the upper-cased originals. -/
theorem C9_frame_no_mutation (qrOk : String → Bool) (df : DataFrame) :
    ((generate_sticker_labels qrOk df).1).rows = df.rows ∧
    ((generate_sticker_labels qrOk df).1).columns = df.columns.map pyUpper := by
  unfold generate_sticker_labels
  cases h : resolve (df.columns.map pyUpper) <;> simp [h]

/-- C10: the resolver does not guarantee distinct columns per role: on the
single-column list ["STORE LOCATION"], the line-location role and the
store-location role both resolve to that one column, since a name
containing "STORE" and "LOC" also contains "LOC". -/
theorem C10_store_line_collision :
    loc_col ["STORE LOCATION"] = some "STORE LOCATION" ∧
    store_loc_col ["STORE LOCATION"] = some "STORE LOCATION" := by
  decide

/-! ## Tokenizer lemmas for the idempotence claim -/

theorem splitSep_ne_nil (l : List Char) : splitSep l ≠ [] := by
  induction l with
  | nil => simp [splitSep]
  | cons c cs ih =>
    rw [splitSep]
    by_cases hc : isSep c = true
    · simp [hc]
    · have hc2 : isSep c = false := by revert hc; cases isSep c <;> simp
      simp only [hc2, Bool.false_eq_true, if_false]
      cases hs : splitSep cs with
      | nil => exact absurd hs ih
      | cons g gs => simp

theorem mem_splitSep_sep_free (l : List Char) :
    ∀ g ∈ splitSep l, ∀ c ∈ g, isSep c = false := by
  induction l with
  | nil =>
    intro g hg c hc
    simp [splitSep] at hg
    subst hg
    simp at hc
  | cons a as ih =>
    intro g hg c hc
    rw [splitSep] at hg
    by_cases ha : isSep a = true
    · simp only [ha, if_true] at hg
      rcases List.mem_cons.mp hg with h1 | h1
      · subst h1; simp at hc
      · exact ih g h1 c hc
    · have ha2 : isSep a = false := by revert ha; cases isSep a <;> simp
      simp only [ha2, Bool.false_eq_true, if_false] at hg
      cases hs : splitSep as with
      | nil => exact absurd hs (splitSep_ne_nil as)
      | cons g0 gs =>
        rw [hs] at hg
        rcases List.mem_cons.mp hg with h1 | h1
        · subst h1
          rcases List.mem_cons.mp hc with h2 | h2
          · subst h2; exact ha2
          · exact ih g0 (by rw [hs]; exact List.mem_cons_self g0 gs) c h2
        · exact ih g (by rw [hs]; exact List.mem_cons_of_mem g0 h1) c hc

theorem splitSep_append :
    ∀ (t : List Char), (∀ c ∈ t, isSep c = false) →
      ∀ (l g : List Char) (gs : List (List Char)),
        splitSep l = g :: gs → splitSep (t ++ l) = (t ++ g) :: gs := by
  intro t
  induction t with
  | nil =>
    intro _ l g gs h
    simpa using h
  | cons a t ih =>
    intro ht l g gs h
    have ha : isSep a = false := ht a (List.mem_cons_self a t)
    have ht2 : ∀ c ∈ t, isSep c = false := fun c hc => ht c (List.mem_cons_of_mem a hc)
    have hrec := ih ht2 l g gs h
    rw [List.cons_append, splitSep, ha]
    simp only [Bool.false_eq_true, if_false]
    rw [hrec]
    rfl

theorem string_data_append (a b : String) : (a ++ b).data = a.data ++ b.data := rfl

theorem string_mk_data (s : String) : String.mk s.data = s := rfl

theorem tokens_joinT :
    ∀ (ts : List (List Char)), (∀ t ∈ ts, t ≠ []) →
      (∀ t ∈ ts, ∀ c ∈ t, isSep c = false) →
      (splitSep (joinT ts)).filter (fun g => g ≠ []) = ts := by
  intro ts
  induction ts with
  | nil => intro _ _; rfl
  | cons t rest ih =>
    intro hne hsep
    have ht : ∀ c ∈ t, isSep c = false := hsep t (List.mem_cons_self t rest)
    have htne : t ≠ [] := hne t (List.mem_cons_self t rest)
    cases rest with
    | nil =>
      have h1 : splitSep (t ++ ([] : List Char)) = (t ++ []) :: [] :=
        splitSep_append t ht [] [] [] rfl
      have h2 : splitSep t = [t] := by simpa using h1
      show (splitSep t).filter (fun g => g ≠ []) = [t]
      rw [h2]
      simp [htne]
    | cons t2 rest2 =>
      have hne2 : ∀ x ∈ t2 :: rest2, x ≠ [] :=
        fun x hx => hne x (List.mem_cons_of_mem t hx)
      have hsep2 : ∀ x ∈ t2 :: rest2, ∀ c ∈ x, isSep c = false :=
        fun x hx => hsep x (List.mem_cons_of_mem t hx)
      have hrec := ih hne2 hsep2
      have hund : isSep '_' = true := by decide
      have hu : splitSep ('_' :: joinT (t2 :: rest2))
          = [] :: splitSep (joinT (t2 :: rest2)) := by
        rw [splitSep, hund]
        simp
      have happ := splitSep_append t ht ('_' :: joinT (t2 :: rest2)) []
        (splitSep (joinT (t2 :: rest2))) hu
      show (splitSep (t ++ '_' :: joinT (t2 :: rest2))).filter (fun g => g ≠ [])
          = t :: t2 :: rest2
      rw [happ, List.filter_cons]
      simp only [List.append_nil]
      rw [hrec]
      simp [htne]

theorem joinUnderscore_data :
    ∀ ss : List String, (joinUnderscore ss).data = joinT (ss.map String.data) := by
  intro ss
  induction ss with
  | nil => rfl
  | cons t rest ih =>
    cases rest with
    | nil => rfl
    | cons t2 rest2 =>
      show (t ++ "_" ++ joinUnderscore (t2 :: rest2)).data
          = t.data ++ '_' :: joinT ((t2 :: rest2).map String.data)
      rw [string_data_append, string_data_append, ih]
      simp

theorem mem_joinT :
    ∀ (ts : List (List Char)) (c : Char), c ∈ joinT ts →
      (∃ t ∈ ts, c ∈ t) ∨ c = '_' := by
  intro ts
  induction ts with
  | nil => intro c hc; simp [joinT] at hc
  | cons t rest ih =>
    intro c hc
    cases rest with
    | nil =>
      left
      exact ⟨t, List.mem_cons_self t [], by simpa [joinT] using hc⟩
    | cons t2 rest2 =>
      rw [show joinT (t :: t2 :: rest2) = t ++ '_' :: joinT (t2 :: rest2) from rfl] at hc
      rcases List.mem_append.mp hc with h1 | h1
      · left; exact ⟨t, List.mem_cons_self t (t2 :: rest2), h1⟩
      · rcases List.mem_cons.mp h1 with h2 | h2
        · right; exact h2
        · rcases ih c h2 with ⟨u, hu, hcu⟩ | h3
          · left; exact ⟨u, List.mem_cons_of_mem t hu, hcu⟩
          · right; exact h3

theorem dropWhile_all_false {p : Char → Bool} (l : List Char)
    (h : ∀ c ∈ l, p c = false) : l.dropWhile p = l := by
  cases l with
  | nil => rfl
  | cons a l2 =>
    rw [List.dropWhile_cons, h a (List.mem_cons_self a l2)]
    simp

theorem pyStrip_eq_self (s : String) (h : ∀ c ∈ s.data, isPySpace c = false) :
    pyStrip s = s := by
  unfold pyStrip
  rw [dropWhile_all_false s.data h,
    dropWhile_all_false s.data.reverse (fun c hc => h c (List.mem_reverse.mp hc)),
    List.reverse_reverse]

theorem isPySpace_false_of_isSep (c : Char) (h : isSep c = false) :
    isPySpace c = false := by
  unfold isSep at h
  cases hp : isPySpace c
  · rfl
  · rw [hp] at h; simp at h

theorem mem_tokenize (s x : String) (hx : x ∈ tokenize s) :
    x ≠ "" ∧ ∀ c ∈ x.data, isSep c = false := by
  unfold tokenize at hx
  obtain ⟨g, hg, hmk⟩ := List.mem_map.mp hx
  obtain ⟨hg1, hg2⟩ := List.mem_filter.mp hg
  have hgne : g ≠ [] := of_decide_eq_true hg2
  have hxd : x.data = g := by rw [← hmk]
  constructor
  · intro hempty
    apply hgne
    rw [← hxd, hempty]
  · intro c hc
    rw [hxd] at hc
    exact mem_splitSep_sep_free s.data g hg1 c hc

theorem joinT_ne_nil (t : List Char) (ts : List (List Char)) (ht : t ≠ []) :
    joinT (t :: ts) ≠ [] := by
  cases ts with
  | nil => simpa [joinT] using ht
  | cons t2 rest =>
    show t ++ '_' :: joinT (t2 :: rest) ≠ []
    intro hcontra
    exact ht (List.append_eq_nil.mp hcontra).1

theorem joinT_no_space (ts : List (List Char))
    (hsep : ∀ t ∈ ts, ∀ c ∈ t, isSep c = false) :
    ∀ c ∈ joinT ts, isPySpace c = false := by
  intro c hc
  rcases mem_joinT ts c hc with ⟨t, ht, hct⟩ | h
  · exact isPySpace_false_of_isSep c (hsep t ht c hct)
  · rw [h]; decide

/-- C7: the location parser is idempotent on its output representation:
whenever a parse result has all seven slots non-empty, joining the seven
slots with single underscores and re-parsing reproduces exactly the same
seven slots. -/
theorem C7_parse_idempotent (s : String)
    (h : ∀ x ∈ parse_location_string (some s), x ≠ "") :
    parse_location_string (some (joinUnderscore (parse_location_string (some s))))
      = parse_location_string (some s) := by
  by_cases hs : s = ""
  · exfalso
    subst hs
    exact h "" (by decide) rfl
  have hparse0 : parse_location_string (some s)
      = if s = "" then ["", "", "", "", "", "", ""]
        else (tokenize (pyStrip s)).take 7
          ++ List.replicate (7 - ((tokenize (pyStrip s)).take 7).length) "" := rfl
  have hparse : parse_location_string (some s)
      = (tokenize (pyStrip s)).take 7
        ++ List.replicate (7 - ((tokenize (pyStrip s)).take 7).length) "" := by
    rw [hparse0, if_neg hs]
  set t7 := (tokenize (pyStrip s)).take 7 with ht7def
  have hlt7 : t7.length = 7 := by
    by_contra hne
    have hle : t7.length ≤ 7 := by
      rw [ht7def]
      simp [List.length_take]
    have hmem : "" ∈ parse_location_string (some s) := by
      rw [hparse]
      exact List.mem_append_right _ (List.mem_replicate.mpr ⟨by omega, rfl⟩)
    exact h "" hmem rfl
  have hr : parse_location_string (some s) = t7 := by
    rw [hparse, hlt7]
    simp
  have htoks : ∀ x ∈ t7, x ≠ "" ∧ ∀ c ∈ x.data, isSep c = false := by
    intro x hx
    exact mem_tokenize (pyStrip s) x (List.take_subset 7 _ hx)
  rw [hr]
  have hjd : (joinUnderscore t7).data = joinT (t7.map String.data) :=
    joinUnderscore_data t7
  have hts_ne : ∀ td ∈ t7.map String.data, td ≠ [] := by
    intro td htd hnil
    obtain ⟨x, hx, hxd⟩ := List.mem_map.mp htd
    apply (htoks x hx).1
    apply String.ext
    rw [hxd, hnil]
  have hts_sep : ∀ td ∈ t7.map String.data, ∀ c ∈ td, isSep c = false := by
    intro td htd c hc
    obtain ⟨x, hx, hxd⟩ := List.mem_map.mp htd
    rw [← hxd] at hc
    exact (htoks x hx).2 c hc
  have hj_ne : joinUnderscore t7 ≠ "" := by
    intro hempty
    have hd : (joinUnderscore t7).data = [] := by rw [hempty]
    rw [hjd] at hd
    cases ht7map : t7.map String.data with
    | nil =>
      have hlen0 : t7.length = 0 := by
        have := congrArg List.length ht7map
        simpa using this
      omega
    | cons td rest =>
      have htdne : td ≠ [] := hts_ne td (by rw [ht7map]; exact List.mem_cons_self td rest)
      rw [ht7map] at hd
      exact joinT_ne_nil td rest htdne hd
  have hstrip : pyStrip (joinUnderscore t7) = joinUnderscore t7 := by
    apply pyStrip_eq_self
    intro c hc
    rw [hjd] at hc
    exact joinT_no_space (t7.map String.data) hts_sep c hc
  have htok : tokenize (joinUnderscore t7) = t7 := by
    unfold tokenize
    rw [hjd, tokens_joinT (t7.map String.data) hts_ne hts_sep, List.map_map]
    have hid : ∀ x ∈ t7, (String.mk ∘ String.data) x = x := fun x _ => rfl
    rw [List.map_congr_left hid]
    exact List.map_id' t7
  have hfinal0 : parse_location_string (some (joinUnderscore t7))
      = if joinUnderscore t7 = "" then ["", "", "", "", "", "", ""]
        else (tokenize (pyStrip (joinUnderscore t7))).take 7
          ++ List.replicate
            (7 - ((tokenize (pyStrip (joinUnderscore t7))).take 7).length) "" := rfl
  rw [hfinal0, if_neg hj_ne, hstrip, htok]
  have htake : t7.take 7 = t7 := List.take_of_length_le (by omega)
  rw [htake, hlt7]
  simp

/-- Witness for C7: a location string with seven non-empty tokens. -/
theorem C7_parse_idempotent_witness :
    parse_location_string
        (some (joinUnderscore (parse_location_string (some "A_B_C_D_E_F_G"))))
      = parse_location_string (some "A_B_C_D_E_F_G") :=
  C7_parse_idempotent "A_B_C_D_E_F_G" (by decide)
